import Mathlib

/-
Verification development for the wayback-rs repository.

Shallow embedding conventions:
- Rust `String`/`&str` and `Bytes` buffers are modelled as Lean `String`.
- Machine integers (`u32`/`u64`/`usize`) are modelled as `Nat`; the only
  subtraction in scope (`download_items`' skipped count) is proved not to
  underflow, so truncated `Nat` subtraction coincides with `usize` behavior.
- Hashing (SHA-1, `compute_digest`) is kept abstract as a `digestOf` function
  parameter: the code under verification only compares digest strings for
  equality and never inspects SHA-1 internals.  The Base32 codec of
  src/src/digest.rs is modelled concretely.
- Network I/O (reqwest) is modelled by oracle functions giving each request's
  response; issued requests are recorded in traces so that claims about which
  requests happen (and in which order) are statable.
- `HashSet<String>` is modelled as a `List String` with unique elements
  (insertion only happens under a negative membership test, mirroring
  `HashSet::insert`'s return value).
-/

namespace WaybackRs

/-! ## Generic list sorting (models `Vec::sort`, a stable comparison sort).
The session sorts by the item's derived lexicographic order; every claim below
depends only on the sorted list itself or on its length, never on which stable
sort produced it. -/

def insertLe {α : Type} (le : α → α → Bool) (a : α) : List α → List α
  | [] => [a]
  | b :: bs => if le a b then a :: b :: bs else b :: insertLe le a bs

def sortLe {α : Type} (le : α → α → Bool) : List α → List α
  | [] => []
  | a :: as => insertLe le a (sortLe le as)

/-! ## Item model (src/src/item.rs and src/client/src/item.rs).
`archived_at : NaiveDateTime` is represented by its canonical 14-digit
timestamp string (`Item::timestamp()`); chronological order on valid
timestamps coincides with lexicographic string order. -/

structure Item where
  url : String
  timestamp : String
  digest : String
  mime_type : String
  length : Nat
  status : Option Nat
deriving DecidableEq, Repr

/-- Lexicographic comparison over the fields in declaration order, as derived
by `#[derive(Ord)]` on the item struct. -/
def itemCompare (a b : Item) : Ordering :=
  (compare a.url b.url).then ((compare a.timestamp b.timestamp).then
    ((compare a.digest b.digest).then ((compare a.mime_type b.mime_type).then
      ((compare a.length b.length).then (compare a.status b.status)))))

def itemLe (a b : Item) : Bool :=
  match itemCompare a b with
  | Ordering.gt => false
  | _ => true

def sort_items (l : List Item) : List Item := sortLe itemLe l

/-- Item::make_filename (src/client/src/item.rs lines 75-88):
`<digest>.json` for application/json, `<digest>.html` for text/html,
bare `<digest>` otherwise. -/
def make_filename (item : Item) : String :=
  match item.mime_type with
  | "application/json" => item.digest ++ ".json"
  | "text/html" => item.digest ++ ".html"
  | _ => item.digest

/-! ## Session deduplication (src/client/src/session.rs lines 210-225 for
`download_items`, lines 121-137 for `resolve_redirects`; both phases run the
identical sequence: sort, keep first occurrence per digest, drop digests
listed (trimmed) in the known-digests file). -/

/-- Models `items.retain(|item| digests.insert(item.digest.clone()))`:
keeps an item exactly when its digest was not yet in the seen set, and
returns the final seen set. -/
def dedup_by_digest : List Item → List String → List Item × List String
  | [], seen => ([], seen)
  | i :: rest, seen =>
    if i.digest ∈ seen then dedup_by_digest rest seen
    else
      let p := dedup_by_digest rest (i.digest :: seen)
      (i :: p.1, p.2)

/-- Whitespace trimming of a known-digests line (`str::trim`), expressed as a
structurally recursive function so that it evaluates inside the kernel.
Whitespace here is ASCII whitespace; digests never contain whitespace of any
kind, so the distinction from Unicode trimming is immaterial to the claims. -/
def trim_line (s : String) : String :=
  String.mk (((s.data.dropWhile Char.isWhitespace).reverse.dropWhile
    Char.isWhitespace).reverse)

/-- Models the known-digests loop: `digests.remove(line?.trim())` for each
line of the known-digests file. -/
def remove_known (digests : List String) (known_lines : List String) : List String :=
  known_lines.foldl (fun s line => s.erase (trim_line line)) digests

/-- Models `items.retain(|item| digests.remove(&item.digest))`: keeps an item
exactly when its digest is still in the set, removing it as a side effect. -/
def retain_in_set : List Item → List String → List Item × List String
  | [], s => ([], s)
  | i :: rest, s =>
    if i.digest ∈ s then
      let p := retain_in_set rest (s.erase i.digest)
      (i :: p.1, p.2)
    else retain_in_set rest s

/-- The items a session phase actually processes after reading its CSV input:
sorted, deduplicated by digest, with known digests removed. -/
def eligible_items (items : List Item) (known_lines : List String) : List Item :=
  let sorted := sort_items items
  let p := dedup_by_digest sorted []
  (retain_in_set p.1 (remove_known p.2 known_lines)).1

/-! ## Phase 3: Session::download_items (src/client/src/session.rs
lines 204-300).  `fetch` is the oracle for `Downloader::download_item`
(None models a fetch error after retries); `digestOf` abstracts
`compute_digest`. -/

/-- A gzip file written by the session: on-disk name, gzip inner filename,
payload bytes. -/
structure GzFile where
  name : String
  inner_name : String
  content : String
deriving DecidableEq, Repr

inductive ItemOutcome
  | success (item : Item) (content : String)
  | invalid (item : Item) (content : String) (computed : String)
  | failed (item : Item)
deriving DecidableEq, Repr

/-- One iteration of the download stream (session.rs lines 230-263). -/
def download_step (digestOf : String → String) (fetch : Item → Option String)
    (item : Item) : ItemOutcome :=
  match fetch item with
  | none => ItemOutcome.failed item
  | some content =>
    let expected := item.digest
    let computed := digestOf content
    if computed = expected then ItemOutcome.success item content
    else ItemOutcome.invalid item content computed

def outcome_data_file : ItemOutcome → Option GzFile
  | ItemOutcome.success item content =>
    some ⟨item.digest ++ ".gz", make_filename item, content⟩
  | _ => none

def outcome_invalid_file : ItemOutcome → Option GzFile
  | ItemOutcome.invalid item content computed =>
    some ⟨computed ++ ".gz", make_filename item, content⟩
  | _ => none

def outcome_invalid_row : ItemOutcome → Option (String × String)
  | ItemOutcome.invalid item _ computed => some (item.digest, computed)
  | _ => none

def outcome_error_row : ItemOutcome → Option Item
  | ItemOutcome.failed item => some item
  | _ => none

def is_success_outcome : ItemOutcome → Bool
  | ItemOutcome.success _ _ => true
  | _ => false

def is_invalid_outcome : ItemOutcome → Bool
  | ItemOutcome.invalid _ _ _ => true
  | _ => false

def is_failed_outcome : ItemOutcome → Bool
  | ItemOutcome.failed _ => true
  | _ => false

structure DownloadResult where
  success_count : Nat
  invalid_count : Nat
  skipped_count : Nat
  error_count : Nat
  data_files : List GzFile
  invalid_files : List GzFile
  invalid_csv : List (String × String)
  error_csv : List Item
deriving Repr

/-- Session::download_items: reads originals.csv and extras.csv, sorts,
records the total count, deduplicates by digest, removes known digests,
fetches the remainder, verifies digests, and returns
`(success, invalid, total - success - error - invalid, error)`. -/
def download_items (digestOf : String → String) (fetch : Item → Option String)
    (originals extras : List Item) (known_lines : List String) : DownloadResult :=
  let total := (sort_items (originals ++ extras)).length
  let outcomes := (eligible_items (originals ++ extras) known_lines).map
    (download_step digestOf fetch)
  let s := outcomes.countP is_success_outcome
  let i := outcomes.countP is_invalid_outcome
  let e := outcomes.countP is_failed_outcome
  { success_count := s
  , invalid_count := i
  , skipped_count := total - s - e - i
  , error_count := e
  , data_files := outcomes.filterMap outcome_data_file
  , invalid_files := outcomes.filterMap outcome_invalid_file
  , invalid_csv := outcomes.filterMap outcome_invalid_row
  , error_csv := outcomes.filterMap outcome_error_row }

/-! ## Digest codec (src/src/digest.rs).  The Base32 alphabet is RFC 4648:
A-Z encode 0-25 and 2-7 encode 26-31.  Bit packing of 32 five-bit symbols
into 20 bytes is expressed through the common value in Nat
(32 symbols base 32 = 20 digits base 256 = 160 bits). -/

def is_valid_digest (s : String) : Bool :=
  s.data.length == 32 &&
    s.data.all (fun c => (50 ≤ c.toNat && c.toNat ≤ 55) || (65 ≤ c.toNat && c.toNat ≤ 90))

/-- Value of one Base32 symbol ('A'-'Z' are 0-25, '2'-'7' are 26-31;
character ranges compared by scalar value as in the Rust source). -/
def b32_decode_value (c : Char) : Option Nat :=
  if 65 ≤ c.toNat ∧ c.toNat ≤ 90 then some (c.toNat - 65)
  else if 50 ≤ c.toNat ∧ c.toNat ≤ 55 then some (26 + (c.toNat - 50))
  else none

def b32_encode_char (n : Nat) : Char :=
  if n < 26 then Char.ofNat (65 + n) else Char.ofNat (50 + (n - 26))

def traverse_option {α β : Type} (f : α → Option β) : List α → Option (List β)
  | [] => some []
  | a :: as =>
    match f a, traverse_option f as with
    | some b, some bs => some (b :: bs)
    | _, _ => none

/-- Big-endian positional value of a digit list. -/
def natFromDigits (base : Nat) : List Nat → Nat
  | [] => 0
  | d :: ds => d * base ^ ds.length + natFromDigits base ds

/-- Fixed-width big-endian digit list of a number. -/
def natToDigits (base : Nat) : Nat → Nat → List Nat
  | 0, _ => []
  | w + 1, n => n / base ^ w :: natToDigits base w (n % base ^ w)

/-- digest::string_to_bytes: succeeds only on 32-character inputs that
Base32-decode to exactly 20 bytes (data_encoding's BASE32 with the RFC 4648
alphabet; a padded 32-character input decodes to fewer than 20 bytes and is
rejected by the `count == 20` check, exactly as inputs with symbols outside
the alphabet are rejected by the decoder itself). -/
def string_to_bytes (s : String) : Option (List Nat) :=
  if s.data.length = 32 then
    match traverse_option b32_decode_value s.data with
    | none => none
    | some vals =>
      let out := natToDigits 256 20 (natFromDigits 32 vals)
      if out.length = 20 then some out else none
  else none

/-- digest::bytes_to_string: Base32-encode a 20-byte SHA-1 hash as 32
characters. -/
def bytes_to_string (bytes : List Nat) : String :=
  String.mk ((natToDigits 32 32 (natFromDigits 256 bytes)).map b32_encode_char)

/-! ## Content-addressable store (src/src/store/data.rs). -/

/-- store::is_valid_char: '2'..='7' or ASCII uppercase. -/
def store_is_valid_char (c : Char) : Bool :=
  (50 ≤ c.toNat && c.toNat ≤ 55) || (65 ≤ c.toNat && c.toNat ≤ 90)

/-- Store::is_valid_digest (src/src/store/data.rs lines 244-246). -/
def store_is_valid_digest (s : String) : Bool :=
  s.data.length == 32 && s.data.all store_is_valid_char

/-- Store::location (src/src/store/data.rs lines 188-201): the canonical path
`base/<first char>/<digest>.gz` for a valid digest, nothing otherwise.
Paths are modelled as '/'-joined strings. -/
def store_location (base : String) (digest : String) : Option String :=
  if store_is_valid_digest digest then
    digest.data.head?.map (fun c =>
      base ++ "/" ++ String.mk [c] ++ "/" ++ digest ++ ".gz")
  else none

/-! ## Archive URL constructors. -/

/-- Item::wayback_url (src/src/item.rs lines 94-101): http scheme. -/
def item_wayback_url (item : Item) (original : Bool) : String :=
  "http://web.archive.org/web/" ++ item.timestamp ++
    (if original then "id_" else "if_") ++ "/" ++ item.url

/-- Downloader::wayback_url (src/src/downloader.rs lines 110-117): https
scheme, otherwise the same construction. -/
def downloader_wayback_url (url timestamp : String) (original : Bool) : String :=
  "https://web.archive.org/web/" ++ timestamp ++
    (if original then "id_" else "if_") ++ "/" ++ url

/-! ## Archive URL parsing (src/src/item.rs lines 42-62).
The source regex is
`^http(:?s)?://web.archive.org/web/(?P<timestamp>\d{14})(?:id_)?/(?P<url>.+)$`.
The unescaped dots in the host are wildcards (any character except newline),
the scheme group accepts "s" or ":s", and `.+` excludes newlines; all of this
is reproduced below.  The committed-choice parsing of the optional groups
agrees with regex backtracking because no skipped alternative can match the
mandatory following literal. -/

structure UrlInfo where
  url : String
  timestamp : String
deriving DecidableEq, Repr

def dropLit : List Char → List Char → Option (List Char)
  | [], rest => some rest
  | _ :: _, [] => none
  | p :: ps, c :: cs => if c = p then dropLit ps cs else none

def drop_scheme_tail (l : List Char) : List Char :=
  match dropLit [':', 's'] l with
  | some r => r
  | none =>
    match dropLit ['s'] l with
    | some r => r
    | none => l

def drop_host_web : List Char → Option (List Char)
  | 'w' :: 'e' :: 'b' :: c1 :: 'a' :: 'r' :: 'c' :: 'h' :: 'i' :: 'v' :: 'e' ::
      c2 :: 'o' :: 'r' :: 'g' :: '/' :: 'w' :: 'e' :: 'b' :: '/' :: rest =>
    if c1 ≠ '\n' ∧ c2 ≠ '\n' then some rest else none
  | _ => none

/-- UrlInfo::from_str. -/
def parse_url_info (s : String) : Option UrlInfo :=
  match dropLit ['h', 't', 't', 'p'] s.data with
  | none => none
  | some r1 =>
    match dropLit [':', '/', '/'] (drop_scheme_tail r1) with
    | none => none
    | some r2 =>
      match drop_host_web r2 with
      | none => none
      | some r3 =>
        let ts := r3.take 14
        if ts.length == 14 && ts.all Char.isDigit then
          let r4 := r3.drop 14
          let r5 := match dropLit ['i', 'd', '_'] r4 with
            | some x => x
            | none => r4
          match r5 with
          | '/' :: rest =>
            if rest ≠ [] ∧ rest.all (fun c => c ≠ '\n') then
              some ⟨String.mk rest, String.mk ts⟩
            else none
          | _ => none
        else none

/-- util::redirect::guess_redirect_content (src/src/util/mod.rs lines 75-80). -/
def guess_redirect_content (url : String) : String :=
  "<html><body>You are being <a href=\"" ++ url ++ "\">redirected</a>.</body></html>"

/-! ## Content client redirect resolution (src/src/downloader.rs
lines 119-298 and 300-374).  HTTP is modelled by two oracles giving the
response each URL would produce on HEAD and on GET in this run; the requests
actually issued are returned as a trace.  `digestFn` abstracts
`compute_digest` over the content bytes. -/

structure HeadResp where
  status : Nat
  location : Option String
deriving DecidableEq, Repr

structure GetResp where
  status : Nat
  body : String
deriving DecidableEq, Repr

inductive Req
  | head_req (url : String)
  | get_req (url : String)
deriving DecidableEq, Repr

inductive DlError
  | unexpected_redirect
  | unexpected_redirect_url (loc : String)
  | unexpected_status (code : Nat)
deriving DecidableEq, Repr

structure RedirectResolution where
  url : String
  timestamp : String
  content : String
  valid_initial_content : Bool
  valid_digest : Bool
deriving DecidableEq, Repr

/-- Downloader::direct_resolve_redirect: HEAD the identity capture, expect
302, return the Location header. -/
def direct_resolve_redirect (head_oracle : String → HeadResp)
    (url timestamp : String) : Except DlError String × List Req :=
  let req_url := downloader_wayback_url url timestamp true
  let r := head_oracle req_url
  if r.status = 302 then
    match r.location with
    | some loc => (Except.ok loc, [Req.head_req req_url])
    | none => (Except.error DlError.unexpected_redirect, [Req.head_req req_url])
  else (Except.error (DlError.unexpected_status r.status), [Req.head_req req_url])

/-- Downloader::resolve_redirect: HEAD the initial identity capture, parse the
Location, guess the canonical redirect page, fall back to GET when the guess's
digest does not match, then HEAD the next capture to obtain the terminal
location. -/
def resolve_redirect (head_oracle : String → HeadResp) (get_oracle : String → GetResp)
    (digestFn : String → String) (url timestamp expected_digest : String) :
    Except DlError RedirectResolution × List Req :=
  let initial_url := downloader_wayback_url url timestamp true
  let r := head_oracle initial_url
  if r.status = 302 then
    match r.location with
    | some location =>
      match parse_url_info location with
      | none => (Except.error (DlError.unexpected_redirect_url location),
                 [Req.head_req initial_url])
      | some info =>
        let guess := guess_redirect_content info.url
        let guess_digest := digestFn guess
        if guess_digest = expected_digest then
          let next := direct_resolve_redirect head_oracle info.url info.timestamp
          match next.1 with
          | Except.error e => (Except.error e, Req.head_req initial_url :: next.2)
          | Except.ok actual_url =>
            match parse_url_info actual_url with
            | none => (Except.error (DlError.unexpected_redirect_url actual_url),
                       Req.head_req initial_url :: next.2)
            | some actual =>
              (Except.ok ⟨actual.url, actual.timestamp, guess, true, true⟩,
               Req.head_req initial_url :: next.2)
        else
          let g := get_oracle initial_url
          if g.status = 200 then
            let direct_digest := digestFn g.body
            let next := direct_resolve_redirect head_oracle info.url info.timestamp
            match next.1 with
            | Except.error e =>
              (Except.error e,
               Req.head_req initial_url :: Req.get_req initial_url :: next.2)
            | Except.ok actual_url =>
              match parse_url_info actual_url with
              | none =>
                (Except.error (DlError.unexpected_redirect_url actual_url),
                 Req.head_req initial_url :: Req.get_req initial_url :: next.2)
              | some actual =>
                (Except.ok ⟨actual.url, actual.timestamp, g.body, false,
                    direct_digest = expected_digest⟩,
                 Req.head_req initial_url :: Req.get_req initial_url :: next.2)
          else
            (Except.error (DlError.unexpected_status g.status),
             [Req.head_req initial_url, Req.get_req initial_url])
    | none => (Except.error DlError.unexpected_redirect, [Req.head_req initial_url])
  else (Except.error (DlError.unexpected_status r.status), [Req.head_req initial_url])

/-! ## CDX retry policy (src/src/cdx.rs lines 36-58) and the generic retry
driver (src/src/util/retries.rs).  The driver makes one initial attempt plus
at most `max_retries()` retries; `max_retries` is documented in retries.rs as
"the maximum number of retries", and the backing `tryhard` configuration
takes it as a retry bound, so a run comprises at most 8 attempts in total. -/

inductive RetryPolicy
  | brk
  | delay (ms : Nat)
deriving DecidableEq, Repr

inductive CdxError
  | item_parsing
  | http_client
  | json_decode
  | blocked_query (query : String)
deriving DecidableEq, Repr

def cdx_max_retries : Nat := 7

def cdx_default_initial_delay_ms : Nat := 250

/-- cdx::Error's Retryable::custom_retry_policy: transport and JSON-decode
errors delay 30 seconds; everything else breaks. -/
def cdx_custom_retry_policy : CdxError → Option RetryPolicy
  | CdxError.http_client => some (RetryPolicy.delay 30000)
  | CdxError.json_decode => some (RetryPolicy.delay 30000)
  | _ => some RetryPolicy.brk

structure ErrorBackoff where
  delay_ms : Nat
deriving DecidableEq, Repr

/-- ErrorBackoff::delay (retries.rs lines 91-101): the error's custom policy
if any, else exponential doubling of the stored delay. -/
def error_backoff_delay {ε : Type} (policy : ε → Option RetryPolicy)
    (b : ErrorBackoff) (e : ε) : RetryPolicy × ErrorBackoff :=
  match policy e with
  | some p => (p, b)
  | none => (RetryPolicy.delay b.delay_ms, ⟨b.delay_ms * 2⟩)

/-- The retry driver: `attempt n` is the result of the (n+1)-th invocation of
the retried future.  Returns the final result, the number of attempts made,
and the list of delays waited between attempts.  `fuel` counts remaining
retries; on failure with no fuel left the error is returned. -/
def retry_run {ε α : Type} (policy : ε → Option RetryPolicy)
    (attempt : Nat → Except ε α) :
    Nat → ErrorBackoff → Nat → Except ε α × Nat × List Nat
  | idx, _, 0 =>
    match attempt idx with
    | Except.ok v => (Except.ok v, idx + 1, [])
    | Except.error e => (Except.error e, idx + 1, [])
  | idx, b, fuel + 1 =>
    match attempt idx with
    | Except.ok v => (Except.ok v, idx + 1, [])
    | Except.error e =>
      match error_backoff_delay policy b e with
      | (RetryPolicy.brk, _) => (Except.error e, idx + 1, [])
      | (RetryPolicy.delay d, b2) =>
        let r := retry_run policy attempt (idx + 1) b2 fuel
        (r.1, r.2.1, d :: r.2.2)

/-- retry_future applied to a CDX operation, with cdx::Error's configuration
(max_retries = 7, initial delay 250 ms). -/
def retry_cdx {α : Type} (attempt : Nat → Except CdxError α) :
    Except CdxError α × Nat × List Nat :=
  retry_run cdx_custom_retry_policy attempt 0 ⟨cdx_default_initial_delay_ms⟩ cdx_max_retries

/-! ## Resume-key extraction (src/src/cdx.rs lines 261-268, inside
IndexClient::search_with_resume_key).  `none` models a panic of
`last.remove(0)` on an empty row. -/

def extract_resume_key (rows : List (List String)) :
    Option (List (List String) × Option String) :=
  let len := rows.length
  if 2 ≤ len ∧ (rows.getD (len - 2) []).isEmpty = true then
    match (rows.getD (len - 1) []).head? with
    | none => none
    | some k => some (rows.take (len - 2), some k)
  else some (rows, none)

/-! ## Phase 2: Session::resolve_redirects (src/client/src/session.rs
lines 117-202).  `resolver` is the oracle for
`Downloader::resolve_redirect` on an item (None models any client error);
`searcher` is the oracle for `IndexClient::search(url, Some(timestamp), None)`
(None models a CDX error).  Each item's step returns its outcome together
with the trace of externally visible actions it performed, in order. -/

inductive REvent
  | search_ev (url : String) (timestamp : String)
  | write_data_ev (file : GzFile)
deriving DecidableEq, Repr

/-- One iteration of the second buffered stage (session.rs lines 152-177):
on a valid digest, query the index for the terminal capture, take the last
returned item, and only then write `data/<item.digest>.gz`; any failure
yields the original item as the error value. -/
def resolve_step (resolver : Item → Option RedirectResolution)
    (searcher : String → String → Option (List Item)) (item : Item) :
    Except Item Item × List REvent :=
  match resolver item with
  | none => (Except.error item, [])
  | some res =>
    if res.valid_digest then
      match searcher res.url res.timestamp with
      | none => (Except.error item, [REvent.search_ev res.url res.timestamp])
      | some found =>
        match found.getLast? with
        | none => (Except.error item, [REvent.search_ev res.url res.timestamp])
        | some actual =>
          (Except.ok actual,
           [REvent.search_ev res.url res.timestamp,
            REvent.write_data_ev ⟨item.digest ++ ".gz", make_filename item, res.content⟩])
    else (Except.error item, [])

structure ResolveResult where
  extras_csv : List Item
  redirect_errors_csv : List Item
  data_files : List GzFile
deriving DecidableEq, Repr

/-- Session::resolve_redirects: read redirects.csv, deduplicate, resolve each
remaining item, append successes' terminal items to extras.csv and failures'
original records to errors/redirects.csv. -/
def resolve_redirects (resolver : Item → Option RedirectResolution)
    (searcher : String → String → Option (List Item))
    (redirects_csv : List Item) (known_lines : List String) : ResolveResult :=
  let steps := (eligible_items redirects_csv known_lines).map
    (resolve_step resolver searcher)
  { extras_csv := steps.filterMap (fun s =>
      match s.1 with
      | Except.ok it => some it
      | Except.error _ => none)
  , redirect_errors_csv := steps.filterMap (fun s =>
      match s.1 with
      | Except.ok _ => none
      | Except.error it => some it)
  , data_files := (steps.map Prod.snd).flatten.filterMap (fun e =>
      match e with
      | REvent.write_data_ev f => some f
      | _ => none) }

/-! ## Supporting lemmas -/

theorem insertLe_length {α : Type} (le : α → α → Bool) (a : α) (l : List α) :
    (insertLe le a l).length = l.length + 1 := by
  induction l with
  | nil => rfl
  | cons b bs ih =>
    simp only [insertLe]
    split
    · simp
    · simp [ih]

theorem sortLe_length {α : Type} (le : α → α → Bool) (l : List α) :
    (sortLe le l).length = l.length := by
  induction l with
  | nil => rfl
  | cons a as ih => simp [sortLe, insertLe_length, ih]

theorem dedup_by_digest_length_le (l : List Item) (seen : List String) :
    (dedup_by_digest l seen).1.length ≤ l.length := by
  induction l generalizing seen with
  | nil => simp [dedup_by_digest]
  | cons i rest ih =>
    simp only [dedup_by_digest]
    split
    · exact le_trans (ih seen) (Nat.le_succ _)
    · simpa using Nat.succ_le_succ (ih (i.digest :: seen))

theorem retain_in_set_length_le (l : List Item) (s : List String) :
    (retain_in_set l s).1.length ≤ l.length := by
  induction l generalizing s with
  | nil => simp [retain_in_set]
  | cons i rest ih =>
    simp only [retain_in_set]
    split
    · simpa using Nat.succ_le_succ (ih (s.erase i.digest))
    · exact le_trans (ih s) (Nat.le_succ _)

theorem eligible_items_length_le (items : List Item) (known : List String) :
    (eligible_items items known).length ≤ items.length := by
  unfold eligible_items
  refine le_trans (retain_in_set_length_le _ _) ?_
  refine le_trans (dedup_by_digest_length_le _ _) ?_
  simp [sort_items, sortLe_length]

theorem countP_outcomes (outs : List ItemOutcome) :
    outs.countP is_success_outcome + outs.countP is_invalid_outcome
      + outs.countP is_failed_outcome = outs.length := by
  induction outs with
  | nil => rfl
  | cons o os ih =>
    cases o <;>
      simp [List.countP_cons, is_success_outcome, is_invalid_outcome,
        is_failed_outcome] <;>
      omega

theorem dedup_by_digest_filter (l : List Item) (seen : List String) (d : String) :
    (dedup_by_digest l seen).1.filter (fun it => it.digest == d)
      = if d ∈ seen then [] else (l.filter (fun it => it.digest == d)).take 1 := by
  induction l generalizing seen with
  | nil => simp [dedup_by_digest]
  | cons i rest ih =>
    simp only [dedup_by_digest]
    by_cases hmem : i.digest ∈ seen
    · rw [if_pos hmem, ih]
      by_cases hd : d ∈ seen
      · simp [hd]
      · have hne : ¬ i.digest = d := fun h => hd (h ▸ hmem)
        simp [hd, List.filter_cons, hne]
    · rw [if_neg hmem]
      simp only [List.filter_cons]
      by_cases hid : i.digest = d
      · subst hid
        have hd : ¬ i.digest ∈ seen := hmem
        simp only [beq_self_eq_true, if_pos]
        rw [ih]
        simp [hd]
      · simp only [beq_iff_eq, hid, if_neg, if_false]
        rw [ih]
        have hdne : ¬ d = i.digest := fun h => hid h.symm
        by_cases hd : d ∈ seen
        · simp [hd, List.mem_cons]
        · have hnotin : ¬ d ∈ i.digest :: seen := by
            simp only [List.mem_cons]
            rintro (h | h)
            · exact hdne h
            · exact hd h
          simp [hd, hnotin]

theorem dedup_by_digest_mem_not_seen (l : List Item) (seen : List String) :
    ∀ it ∈ (dedup_by_digest l seen).1, ¬ it.digest ∈ seen := by
  induction l generalizing seen with
  | nil => simp [dedup_by_digest]
  | cons i rest ih =>
    simp only [dedup_by_digest]
    by_cases hmem : i.digest ∈ seen
    · rw [if_pos hmem]
      exact ih seen
    · rw [if_neg hmem]
      intro it hit
      rcases List.mem_cons.mp hit with h | h
      · exact h ▸ hmem
      · intro hcontra
        exact ih (i.digest :: seen) it h (List.mem_cons_of_mem _ hcontra)

theorem dedup_by_digest_map_nodup (l : List Item) (seen : List String) :
    ((dedup_by_digest l seen).1.map Item.digest).Nodup := by
  induction l generalizing seen with
  | nil => simp [dedup_by_digest]
  | cons i rest ih =>
    simp only [dedup_by_digest]
    by_cases hmem : i.digest ∈ seen
    · rw [if_pos hmem]
      exact ih seen
    · rw [if_neg hmem]
      simp only [List.map_cons, List.nodup_cons]
      constructor
      · intro hcontra
        rcases List.mem_map.mp hcontra with ⟨it, hit, hdig⟩
        exact dedup_by_digest_mem_not_seen rest (i.digest :: seen) it hit
          (hdig ▸ List.mem_cons_self _ _)
      · exact ih (i.digest :: seen)

theorem dedup_by_digest_snd_mem (l : List Item) (seen : List String) (d : String) :
    d ∈ (dedup_by_digest l seen).2
      ↔ d ∈ (dedup_by_digest l seen).1.map Item.digest ∨ d ∈ seen := by
  induction l generalizing seen with
  | nil => simp [dedup_by_digest]
  | cons i rest ih =>
    simp only [dedup_by_digest]
    by_cases hmem : i.digest ∈ seen
    · rw [if_pos hmem]
      exact ih seen
    · rw [if_neg hmem]
      simp only [List.map_cons, List.mem_cons]
      rw [ih (i.digest :: seen)]
      simp only [List.mem_cons]
      tauto

theorem dedup_by_digest_snd_nodup (l : List Item) (seen : List String)
    (h : seen.Nodup) : (dedup_by_digest l seen).2.Nodup := by
  induction l generalizing seen with
  | nil => simpa [dedup_by_digest] using h
  | cons i rest ih =>
    simp only [dedup_by_digest]
    by_cases hmem : i.digest ∈ seen
    · rw [if_pos hmem]
      exact ih seen h
    · rw [if_neg hmem]
      exact ih (i.digest :: seen) (List.nodup_cons.mpr ⟨hmem, h⟩)

theorem remove_known_mem (known : List String) (digests : List String)
    (h : digests.Nodup) (d : String) :
    d ∈ remove_known digests known
      ↔ d ∈ digests ∧ ∀ line ∈ known, ¬ d = trim_line line := by
  induction known generalizing digests with
  | nil => simp [remove_known]
  | cons line rest ih =>
    have hstep : remove_known digests (line :: rest)
        = remove_known (digests.erase (trim_line line)) rest := by
      simp [remove_known]
    rw [hstep, ih (digests.erase (trim_line line)) (h.erase _)]
    constructor
    · rintro ⟨hmem, hrest⟩
      have := (h.mem_erase_iff).mp hmem
      exact ⟨this.2, by
        intro l hl
        rcases List.mem_cons.mp hl with rfl | hl
        · exact this.1
        · exact hrest l hl⟩
    · rintro ⟨hmem, hall⟩
      refine ⟨(h.mem_erase_iff).mpr ⟨hall line (List.mem_cons_self _ _), hmem⟩, ?_⟩
      intro l hl
      exact hall l (List.mem_cons_of_mem _ hl)

theorem retain_in_set_eq_filter (l : List Item) (s : List String)
    (h : (l.map Item.digest).Nodup) :
    (retain_in_set l s).1 = l.filter (fun it => decide (it.digest ∈ s)) := by
  induction l generalizing s with
  | nil => simp [retain_in_set]
  | cons i rest ih =>
    simp only [List.map_cons, List.nodup_cons] at h
    by_cases hmem : i.digest ∈ s
    · have hl : (retain_in_set (i :: rest) s).1
          = i :: (retain_in_set rest (s.erase i.digest)).1 := by
        simp [retain_in_set, hmem]
      have hr : List.filter (fun it => decide (it.digest ∈ s)) (i :: rest)
          = i :: List.filter (fun it => decide (it.digest ∈ s)) rest := by
        simp [List.filter_cons, hmem]
      rw [hl, hr, ih (s.erase i.digest) h.2]
      congr 1
      apply List.filter_congr
      intro it hit
      have hne : ¬ it.digest = i.digest := by
        intro hcontra
        exact h.1 (List.mem_map.mpr ⟨it, hit, hcontra⟩)
      simp only [decide_eq_decide]
      exact List.mem_erase_of_ne hne
    · have hl : (retain_in_set (i :: rest) s).1 = (retain_in_set rest s).1 := by
        simp [retain_in_set, hmem]
      have hr : List.filter (fun it => decide (it.digest ∈ s)) (i :: rest)
          = List.filter (fun it => decide (it.digest ∈ s)) rest := by
        simp [List.filter_cons, hmem]
      rw [hl, hr, ih s h.2]

theorem eligible_items_filter (items : List Item) (known : List String) (d : String) :
    (eligible_items items known).filter (fun it => it.digest == d)
      = if ∃ line ∈ known, trim_line line = d then []
        else ((sort_items items).filter (fun it => it.digest == d)).take 1 := by
  unfold eligible_items
  rw [retain_in_set_eq_filter _ _ (dedup_by_digest_map_nodup _ _)]
  rw [List.filter_filter]
  by_cases hknown : ∃ line ∈ known, trim_line line = d
  · rw [if_pos hknown]
    apply List.filter_eq_nil_iff.mpr
    intro it hit
    rcases hknown with ⟨line, hline, htrim⟩
    by_cases hd : it.digest = d
    · have : ¬ it.digest ∈ remove_known (dedup_by_digest (sort_items items) []).2 known := by
        rw [remove_known_mem known _ (dedup_by_digest_snd_nodup _ _ List.nodup_nil)]
        rintro ⟨-, hall⟩
        exact hall line hline (hd.trans htrim.symm)
      simp [this]
    · simp [hd]
  · rw [if_neg hknown]
    have hcong : (dedup_by_digest (sort_items items) []).1.filter
          (fun it => it.digest == d
            && decide (it.digest ∈ remove_known (dedup_by_digest (sort_items items) []).2 known))
        = (dedup_by_digest (sort_items items) []).1.filter (fun it => it.digest == d) := by
      apply List.filter_congr
      intro it hit
      by_cases hd : it.digest = d
      · have hin : it.digest ∈ (dedup_by_digest (sort_items items) []).2 := by
          rw [dedup_by_digest_snd_mem]
          exact Or.inl (List.mem_map.mpr ⟨it, hit, rfl⟩)
        have : it.digest ∈ remove_known (dedup_by_digest (sort_items items) []).2 known := by
          rw [remove_known_mem known _ (dedup_by_digest_snd_nodup _ _ List.nodup_nil)]
          refine ⟨hin, ?_⟩
          intro line hline hcontra
          exact hknown ⟨line, hline, (hd ▸ hcontra).symm⟩
        rw [hd] at this
        simp [hd, this]
      · simp [hd]
    rw [hcong, dedup_by_digest_filter]
    simp

/-! ## Claim theorems -/

/-- C1: download_items returns (success, invalid, skipped, error) with
skipped = total − success − invalid − error, where total is the number of
items read from originals.csv plus extras.csv before deduplication; the four
counts sum back to total, and the subtraction never underflows because each
item that survives deduplication and known-digest removal contributes exactly
one of success, invalid, or error. -/
theorem download_items_counter_conservation
    (digestOf : String → String) (fetch : Item → Option String)
    (originals extras : List Item) (known_lines : List String) :
    (download_items digestOf fetch originals extras known_lines).success_count
        + (download_items digestOf fetch originals extras known_lines).invalid_count
        + (download_items digestOf fetch originals extras known_lines).skipped_count
        + (download_items digestOf fetch originals extras known_lines).error_count
      = originals.length + extras.length
    ∧ (download_items digestOf fetch originals extras known_lines).success_count
        + (download_items digestOf fetch originals extras known_lines).invalid_count
        + (download_items digestOf fetch originals extras known_lines).error_count
      ≤ originals.length + extras.length := by
  have htot : (sort_items (originals ++ extras)).length
      = originals.length + extras.length := by
    simp [sort_items, sortLe_length]
  have hpart := countP_outcomes
    ((eligible_items (originals ++ extras) known_lines).map
      (download_step digestOf fetch))
  have hle : (eligible_items (originals ++ extras) known_lines).length
      ≤ originals.length + extras.length := by
    have := eligible_items_length_le (originals ++ extras) known_lines
    simpa using this
  simp only [download_items]
  rw [htot]
  simp only [List.length_map] at hpart
  omega

/-- C3: an item whose digest equals the digest of an earlier item in the
sorted list, or whose digest appears (whitespace-trimmed) in the known-digests
file, is never fetched: filtering the processed items by any digest d yields
nothing when d is known, and at most the first sorted occurrence otherwise.
In particular, for an originals.csv holding exactly one item whose digest is
listed in the known-digests file, download_items returns (0, 0, 1, 0) and
writes no files under data/. -/
theorem download_items_skipping_rule :
    (∀ (items : List Item) (known : List String) (d : String),
      (eligible_items items known).filter (fun it => it.digest == d)
        = if ∃ line ∈ known, trim_line line = d then []
          else ((sort_items items).filter (fun it => it.digest == d)).take 1)
    ∧ ((download_items (fun _ => "") (fun _ => none)
          [⟨"https://example.com/a", "20200101000000",
            "ZHYT52YPEOCHJD5FZINSDYXGQZI22WJ4", "text/html", 10, none⟩] []
          ["ZHYT52YPEOCHJD5FZINSDYXGQZI22WJ4"]).success_count = 0
      ∧ (download_items (fun _ => "") (fun _ => none)
          [⟨"https://example.com/a", "20200101000000",
            "ZHYT52YPEOCHJD5FZINSDYXGQZI22WJ4", "text/html", 10, none⟩] []
          ["ZHYT52YPEOCHJD5FZINSDYXGQZI22WJ4"]).invalid_count = 0
      ∧ (download_items (fun _ => "") (fun _ => none)
          [⟨"https://example.com/a", "20200101000000",
            "ZHYT52YPEOCHJD5FZINSDYXGQZI22WJ4", "text/html", 10, none⟩] []
          ["ZHYT52YPEOCHJD5FZINSDYXGQZI22WJ4"]).skipped_count = 1
      ∧ (download_items (fun _ => "") (fun _ => none)
          [⟨"https://example.com/a", "20200101000000",
            "ZHYT52YPEOCHJD5FZINSDYXGQZI22WJ4", "text/html", 10, none⟩] []
          ["ZHYT52YPEOCHJD5FZINSDYXGQZI22WJ4"]).error_count = 0
      ∧ (download_items (fun _ => "") (fun _ => none)
          [⟨"https://example.com/a", "20200101000000",
            "ZHYT52YPEOCHJD5FZINSDYXGQZI22WJ4", "text/html", 10, none⟩] []
          ["ZHYT52YPEOCHJD5FZINSDYXGQZI22WJ4"]).data_files = []) := by
  refine ⟨eligible_items_filter, ?_, ?_, ?_, ?_, ?_⟩ <;> decide

theorem filterMap_data_length (outs : List ItemOutcome) :
    (outs.filterMap outcome_data_file).length = outs.countP is_success_outcome := by
  induction outs with
  | nil => rfl
  | cons o os ih =>
    cases o <;>
      simp [List.filterMap_cons, List.countP_cons, outcome_data_file,
        is_success_outcome, ih]

theorem filterMap_invalid_file_length (outs : List ItemOutcome) :
    (outs.filterMap outcome_invalid_file).length = outs.countP is_invalid_outcome := by
  induction outs with
  | nil => rfl
  | cons o os ih =>
    cases o <;>
      simp [List.filterMap_cons, List.countP_cons, outcome_invalid_file,
        is_invalid_outcome, ih]

theorem filterMap_invalid_row_length (outs : List ItemOutcome) :
    (outs.filterMap outcome_invalid_row).length = outs.countP is_invalid_outcome := by
  induction outs with
  | nil => rfl
  | cons o os ih =>
    cases o <;>
      simp [List.filterMap_cons, List.countP_cons, outcome_invalid_row,
        is_invalid_outcome, ih]

theorem filterMap_error_row_length (outs : List ItemOutcome) :
    (outs.filterMap outcome_error_row).length = outs.countP is_failed_outcome := by
  induction outs with
  | nil => rfl
  | cons o os ih =>
    cases o <;>
      simp [List.filterMap_cons, List.countP_cons, outcome_error_row,
        is_failed_outcome, ih]

/-- C6: for every fetched item, a payload whose computed digest matches the
item's digest is written to data/<expected>.gz and counted as success; a
mismatching payload is written to invalid/<computed>.gz (named by the computed
digest), the pair (expected, computed) is recorded in errors/invalid.csv, the
item is counted as invalid, and no error is raised for the mismatch (the item
never reaches errors/items.csv). -/
theorem download_items_digest_verification
    (digestOf : String → String) (fetch : Item → Option String)
    (originals extras : List Item) (known_lines : List String) :
    (∀ it ∈ eligible_items (originals ++ extras) known_lines, ∀ c, fetch it = some c →
      (digestOf c = it.digest →
        (⟨it.digest ++ ".gz", make_filename it, c⟩ : GzFile)
          ∈ (download_items digestOf fetch originals extras known_lines).data_files)
      ∧ (¬ digestOf c = it.digest →
        (⟨digestOf c ++ ".gz", make_filename it, c⟩ : GzFile)
            ∈ (download_items digestOf fetch originals extras known_lines).invalid_files
          ∧ (it.digest, digestOf c)
            ∈ (download_items digestOf fetch originals extras known_lines).invalid_csv
          ∧ ¬ it ∈ (download_items digestOf fetch originals extras known_lines).error_csv))
    ∧ (download_items digestOf fetch originals extras known_lines).success_count
        = (download_items digestOf fetch originals extras known_lines).data_files.length
    ∧ (download_items digestOf fetch originals extras known_lines).invalid_count
        = (download_items digestOf fetch originals extras known_lines).invalid_files.length
    ∧ (download_items digestOf fetch originals extras known_lines).invalid_count
        = (download_items digestOf fetch originals extras known_lines).invalid_csv.length
    ∧ (download_items digestOf fetch originals extras known_lines).error_count
        = (download_items digestOf fetch originals extras known_lines).error_csv.length := by
  constructor
  · intro it hit c hc
    constructor
    · intro hmatch
      have hstep : download_step digestOf fetch it = ItemOutcome.success it c := by
        simp [download_step, hc, hmatch]
      simp only [download_items]
      apply List.mem_filterMap.mpr
      refine ⟨ItemOutcome.success it c, ?_, rfl⟩
      exact List.mem_map.mpr ⟨it, hit, hstep⟩
    · intro hmismatch
      have hstep : download_step digestOf fetch it
          = ItemOutcome.invalid it c (digestOf c) := by
        simp [download_step, hc, hmismatch]
      have hmem : ItemOutcome.invalid it c (digestOf c)
          ∈ (eligible_items (originals ++ extras) known_lines).map
              (download_step digestOf fetch) :=
        List.mem_map.mpr ⟨it, hit, hstep⟩
      refine ⟨?_, ?_, ?_⟩
      · simp only [download_items]
        exact List.mem_filterMap.mpr ⟨ItemOutcome.invalid it c (digestOf c), hmem, rfl⟩
      · simp only [download_items]
        exact List.mem_filterMap.mpr ⟨ItemOutcome.invalid it c (digestOf c), hmem, rfl⟩
      · simp only [download_items]
        intro hcontra
        rcases List.mem_filterMap.mp hcontra with ⟨o, ho, hrow⟩
        rcases List.mem_map.mp ho with ⟨it2, _, hstep2⟩
        cases o with
        | failed itf =>
          have hf : itf = it := by
            simpa [outcome_error_row] using hrow
          simp only [download_step] at hstep2
          cases hfetch : fetch it2 with
          | none =>
            rw [hfetch] at hstep2
            have heq : it2 = itf := by
              simpa using hstep2
            have hnone : fetch it = none := by
              rw [← hf, ← heq]
              exact hfetch
            rw [hnone] at hc
            exact Option.noConfusion hc
          | some c2 =>
            rw [hfetch] at hstep2
            by_cases hdig : digestOf c2 = it2.digest <;> simp [hdig] at hstep2
        | success a b => simp [outcome_error_row] at hrow
        | invalid a b d => simp [outcome_error_row] at hrow
  · simp only [download_items]
    exact ⟨(filterMap_data_length _).symm, (filterMap_invalid_file_length _).symm,
      (filterMap_invalid_row_length _).symm, (filterMap_error_row_length _).symm⟩

/-- Witness for C6 at a concrete input: one item whose fetched payload has a
mismatching computed digest lands in invalid/, is recorded in
errors/invalid.csv, and produces no error row. -/
theorem download_items_digest_verification_witness :
    (⟨"COMPUTED.gz", "DIGA", "body"⟩ : GzFile)
        ∈ (download_items (fun _ => "COMPUTED") (fun _ => some "body")
            [⟨"u", "20200101000000", "DIGA", "text/plain", 1, none⟩] [] []).invalid_files
      ∧ ("DIGA", "COMPUTED")
        ∈ (download_items (fun _ => "COMPUTED") (fun _ => some "body")
            [⟨"u", "20200101000000", "DIGA", "text/plain", 1, none⟩] [] []).invalid_csv := by
  have h := (download_items_digest_verification (fun _ => "COMPUTED")
    (fun _ => some "body")
    [⟨"u", "20200101000000", "DIGA", "text/plain", 1, none⟩] [] []).1
    ⟨"u", "20200101000000", "DIGA", "text/plain", 1, none⟩ (by decide) "body" rfl
  have h2 := h.2 (by decide)
  exact ⟨h2.1, h2.2.1⟩

theorem natFromDigits_lt (base : Nat) (l : List Nat) (h : ∀ d ∈ l, d < base) :
    natFromDigits base l < base ^ l.length := by
  induction l with
  | nil => simp [natFromDigits]
  | cons d ds ih =>
    simp only [natFromDigits, List.length_cons]
    have hd : d < base := h d (List.mem_cons_self _ _)
    have hds := ih (fun x hx => h x (List.mem_cons_of_mem _ hx))
    calc d * base ^ ds.length + natFromDigits base ds
        < d * base ^ ds.length + base ^ ds.length := by omega
      _ = (d + 1) * base ^ ds.length := by ring
      _ ≤ base * base ^ ds.length := Nat.mul_le_mul_right _ hd
      _ = base ^ (ds.length + 1) := by ring

theorem natToDigits_length (base w n : Nat) : (natToDigits base w n).length = w := by
  induction w generalizing n with
  | zero => rfl
  | succ w ih => simp [natToDigits, ih]

theorem natToDigits_natFromDigits (base : Nat) (l : List Nat)
    (h : ∀ d ∈ l, d < base) :
    natToDigits base l.length (natFromDigits base l) = l := by
  induction l with
  | nil => rfl
  | cons d ds ih =>
    have hb : 0 < base := Nat.lt_of_le_of_lt (Nat.zero_le d) (h d (List.mem_cons_self _ _))
    have hpos : 0 < base ^ ds.length := Nat.pos_pow_of_pos _ hb
    have hF := natFromDigits_lt base ds (fun x hx => h x (List.mem_cons_of_mem _ hx))
    simp only [natFromDigits, List.length_cons, natToDigits]
    have h1 : (d * base ^ ds.length + natFromDigits base ds) / base ^ ds.length = d := by
      rw [Nat.add_comm, Nat.add_mul_div_right _ _ hpos, Nat.div_eq_of_lt hF]
      omega
    have h2 : (d * base ^ ds.length + natFromDigits base ds) % base ^ ds.length
        = natFromDigits base ds := by
      rw [Nat.add_comm, Nat.add_mul_mod_self_right]
      exact Nat.mod_eq_of_lt hF
    rw [h1, h2, ih (fun x hx => h x (List.mem_cons_of_mem _ hx))]

theorem natFromDigits_natToDigits (base w n : Nat) (h : n < base ^ w) :
    natFromDigits base (natToDigits base w n) = n := by
  induction w generalizing n with
  | zero =>
    simp only [natToDigits, natFromDigits]
    simp only [pow_zero] at h
    omega
  | succ w ih =>
    have hb : 0 < base := by
      rcases Nat.eq_zero_or_pos base with h0 | h0
      · subst h0
        simp [Nat.zero_pow] at h
      · exact h0
    have hpos : 0 < base ^ w := Nat.pos_pow_of_pos _ hb
    simp only [natToDigits, natFromDigits, natToDigits_length]
    rw [ih (n % base ^ w) (Nat.mod_lt _ hpos)]
    exact Nat.div_add_mod' n (base ^ w)

theorem b32_decode_value_lt (c : Char) (v : Nat) (h : b32_decode_value c = some v) :
    v < 32 := by
  unfold b32_decode_value at h
  split_ifs at h <;> simp_all <;> omega

theorem b32_encode_decode (c : Char) (v : Nat) (h : b32_decode_value c = some v) :
    b32_encode_char v = c := by
  unfold b32_decode_value at h
  unfold b32_encode_char
  split_ifs at h with h1 h2
  · have hv : c.toNat - 65 = v := by
      simpa using h
    rw [if_pos (by omega)]
    have harg : 65 + v = c.toNat := by omega
    rw [harg, Char.ofNat_toNat]
  · have hv : 26 + (c.toNat - 50) = v := by
      simpa using h
    rw [if_neg (by omega)]
    have harg : 50 + (v - 26) = c.toNat := by omega
    rw [harg, Char.ofNat_toNat]

theorem traverse_b32 (l : List Char)
    (h : ∀ c ∈ l, (50 ≤ c.toNat ∧ c.toNat ≤ 55) ∨ (65 ≤ c.toNat ∧ c.toNat ≤ 90)) :
    ∃ vals, traverse_option b32_decode_value l = some vals
      ∧ vals.length = l.length ∧ (∀ v ∈ vals, v < 32)
      ∧ vals.map b32_encode_char = l := by
  induction l with
  | nil => exact ⟨[], rfl, rfl, by simp, rfl⟩
  | cons c cs ih =>
    obtain ⟨vals, hv, hlen, hlt, hmap⟩ := ih (fun x hx => h x (List.mem_cons_of_mem _ hx))
    have hc := h c (List.mem_cons_self _ _)
    have hex : ∃ v, b32_decode_value c = some v := by
      unfold b32_decode_value
      rcases hc with h1 | h2
      · rw [if_neg (by omega), if_pos (by omega)]
        exact ⟨_, rfl⟩
      · rw [if_pos (by omega)]
        exact ⟨_, rfl⟩
    obtain ⟨v, hval⟩ := hex
    refine ⟨v :: vals, ?_, by simp [hlen], ?_, ?_⟩
    · unfold traverse_option
      rw [hval, hv]
    · intro x hx
      rcases List.mem_cons.mp hx with rfl | hmem
      · exact b32_decode_value_lt c x hval
      · exact hlt x hmem
    · simp [List.map_cons, b32_encode_decode c v hval, hmap]

theorem traverse_b32_none (l : List Char) (c : Char) (hc : c ∈ l)
    (hval : b32_decode_value c = none) :
    traverse_option b32_decode_value l = none := by
  induction l with
  | nil => cases hc
  | cons a as ih =>
    rcases List.mem_cons.mp hc with rfl | hmem
    · unfold traverse_option
      rw [hval]
    · unfold traverse_option
      rw [ih hmem]
      cases b32_decode_value a <;> rfl

/-- C7: for every 32-character string over the digest alphabet,
string_to_bytes succeeds with a 20-byte array and
bytes_to_string (string_to_bytes d) = d; every other string is rejected
(strings of the wrong length, with symbols outside the alphabet, or padded
encodings of fewer than 20 bytes all fail the length / alphabet / count
checks). -/
theorem string_to_bytes_round_trip (s : String) :
    (is_valid_digest s = true →
      ∃ bs, string_to_bytes s = some bs ∧ bs.length = 20 ∧ bytes_to_string bs = s)
    ∧ (is_valid_digest s = false → string_to_bytes s = none) := by
  constructor
  · intro hvalid
    have hparts : s.data.length = 32
        ∧ ∀ c ∈ s.data,
          (50 ≤ c.toNat ∧ c.toNat ≤ 55) ∨ (65 ≤ c.toNat ∧ c.toNat ≤ 90) := by
      simp only [is_valid_digest, Bool.and_eq_true, beq_iff_eq, List.all_eq_true,
        Bool.or_eq_true, decide_eq_true_eq] at hvalid
      exact hvalid
    obtain ⟨hlen, hchars⟩ := hparts
    obtain ⟨vals, hv, hvlen, hvlt, hvmap⟩ := traverse_b32 s.data hchars
    have hNlt : natFromDigits 32 vals < 32 ^ 32 := by
      have h0 := natFromDigits_lt 32 vals hvlt
      rwa [hvlen, hlen] at h0
    have hblen : (natToDigits 256 20 (natFromDigits 32 vals)).length = 20 :=
      natToDigits_length 256 20 _
    refine ⟨natToDigits 256 20 (natFromDigits 32 vals), ?_, hblen, ?_⟩
    · unfold string_to_bytes
      rw [if_pos hlen, hv]
      simp [hblen]
    · unfold bytes_to_string
      have h256 : (256 : Nat) ^ 20 = 32 ^ 32 := by norm_num
      have hN2 : natFromDigits 32 vals < 256 ^ 20 := by
        rw [h256]
        exact hNlt
      rw [natFromDigits_natToDigits 256 20 _ hN2]
      have hback : natToDigits 32 32 (natFromDigits 32 vals) = vals := by
        have h0 := natToDigits_natFromDigits 32 vals hvlt
        rwa [hvlen, hlen] at h0
      rw [hback, hvmap]
  · intro hinvalid
    unfold string_to_bytes
    by_cases hlen : s.data.length = 32
    · rw [if_pos hlen]
      have hex : ∃ c ∈ s.data,
          ¬ ((50 ≤ c.toNat ∧ c.toNat ≤ 55) ∨ (65 ≤ c.toNat ∧ c.toNat ≤ 90)) := by
        by_contra hcon
        push_neg at hcon
        have hval : is_valid_digest s = true := by
          simp only [is_valid_digest, Bool.and_eq_true, beq_iff_eq, List.all_eq_true,
            Bool.or_eq_true, decide_eq_true_eq]
          exact ⟨hlen, hcon⟩
        rw [hval] at hinvalid
        exact absurd hinvalid (by decide)
      obtain ⟨c, hc, hnot⟩ := hex
      have hnone : b32_decode_value c = none := by
        unfold b32_decode_value
        rw [if_neg (by omega), if_neg (by omega)]
      rw [traverse_b32_none s.data c hc hnone]
    · rw [if_neg hlen]

/-- Witness for C7 at the repository's test digest. -/
theorem string_to_bytes_round_trip_witness :
    ∃ bs, string_to_bytes "ZHYT52YPEOCHJD5FZINSDYXGQZI22WJ4" = some bs
      ∧ bs.length = 20
      ∧ bytes_to_string bs = "ZHYT52YPEOCHJD5FZINSDYXGQZI22WJ4" :=
  (string_to_bytes_round_trip "ZHYT52YPEOCHJD5FZINSDYXGQZI22WJ4").1 (by decide)

theorem char_le_iff_toNat (a b : Char) : a ≤ b ↔ a.toNat ≤ b.toNat := by
  rw [Char.le_def, UInt32.le_def]
  simp [BitVec.le_def, Char.toNat, UInt32.toNat]

theorem store_char_range_iff (c : Char) :
    (('2' ≤ c ∧ c ≤ '7') ∨ ('A' ≤ c ∧ c ≤ 'Z'))
      ↔ ((50 ≤ c.toNat ∧ c.toNat ≤ 55) ∨ (65 ≤ c.toNat ∧ c.toNat ≤ 90)) := by
  have e2 : ('2' : Char).toNat = 50 := by decide
  have e7 : ('7' : Char).toNat = 55 := by decide
  have eA : ('A' : Char).toNat = 65 := by decide
  have eZ : ('Z' : Char).toNat = 90 := by decide
  rw [char_le_iff_toNat, char_le_iff_toNat, char_le_iff_toNat, char_le_iff_toNat,
    e2, e7, eA, eZ]

/-- C8: Store::location returns base/<first character of d>/<d>.gz exactly
when d has length 32 and every character is in the ranges 2-7 and A-Z;
otherwise it returns nothing. -/
theorem store_location_path (base d : String) :
    (store_is_valid_digest d = true →
      ∃ c cs, d.data = c :: cs ∧
        store_location base d
          = some (base ++ "/" ++ String.mk [c] ++ "/" ++ d ++ ".gz"))
    ∧ (store_is_valid_digest d = false → store_location base d = none)
    ∧ (store_is_valid_digest d = true
        ↔ d.data.length = 32
          ∧ ∀ c ∈ d.data, ('2' ≤ c ∧ c ≤ '7') ∨ ('A' ≤ c ∧ c ≤ 'Z')) := by
  refine ⟨?_, ?_, ?_⟩
  · intro hvalid
    have hlen : d.data.length = 32 := by
      simp only [store_is_valid_digest, Bool.and_eq_true, beq_iff_eq] at hvalid
      exact hvalid.1
    cases hd : d.data with
    | nil =>
      rw [hd] at hlen
      simp at hlen
    | cons c cs =>
      refine ⟨c, cs, rfl, ?_⟩
      simp [store_location, hvalid, hd]
  · intro hinvalid
    simp [store_location, hinvalid]
  · have hchar : ∀ c : Char, store_is_valid_char c = true
        ↔ (('2' ≤ c ∧ c ≤ '7') ∨ ('A' ≤ c ∧ c ≤ 'Z')) := by
      intro c
      simp only [store_is_valid_char, Bool.or_eq_true, Bool.and_eq_true,
        decide_eq_true_eq]
      exact (store_char_range_iff c).symm
    simp only [store_is_valid_digest, Bool.and_eq_true, beq_iff_eq, List.all_eq_true]
    constructor
    · rintro ⟨h1, h2⟩
      exact ⟨h1, fun c hc => (hchar c).mp (h2 c hc)⟩
    · rintro ⟨h1, h2⟩
      exact ⟨h1, fun c hc => (hchar c).mpr (h2 c hc)⟩

/-- Witness for C8 at the repository's test digest. -/
theorem store_location_path_witness :
    ∃ c cs, ("ZHYT52YPEOCHJD5FZINSDYXGQZI22WJ4" : String).data = c :: cs ∧
      store_location "store" "ZHYT52YPEOCHJD5FZINSDYXGQZI22WJ4"
        = some ("store" ++ "/" ++ String.mk [c] ++ "/"
            ++ "ZHYT52YPEOCHJD5FZINSDYXGQZI22WJ4" ++ ".gz") :=
  (store_location_path "store" "ZHYT52YPEOCHJD5FZINSDYXGQZI22WJ4").1 (by decide)

/-- C10: Item::wayback_url produces the http-scheme archive URL while the
content client's constructor produces the https-scheme URL; the two agree on
everything after the scheme (timestamp, id_/if_ selector, captured URL). -/
theorem wayback_url_schemes (item : Item) (original : Bool)
    (_h : item.timestamp.data.length = 14
      ∧ ∀ c ∈ item.timestamp.data, c.isDigit = true) :
    item_wayback_url item original
        = "http" ++ ("://web.archive.org/web/" ++ item.timestamp
            ++ (if original then "id_" else "if_") ++ "/" ++ item.url)
      ∧ downloader_wayback_url item.url item.timestamp original
        = "https" ++ ("://web.archive.org/web/" ++ item.timestamp
            ++ (if original then "id_" else "if_") ++ "/" ++ item.url) := by
  constructor
  · unfold item_wayback_url
    apply String.ext
    simp [List.append_assoc]
  · unfold downloader_wayback_url
    apply String.ext
    simp [List.append_assoc]

/-- Witness for C10 at a concrete item. -/
theorem wayback_url_schemes_witness :
    item_wayback_url
        ⟨"https://twitter.com/travisbrown", "20201103091610",
          "ZHYT52YPEOCHJD5FZINSDYXGQZI22WJ4", "text/html", 10, none⟩ true
      = "http" ++ ("://web.archive.org/web/" ++ "20201103091610"
          ++ (if true then "id_" else "if_") ++ "/" ++ "https://twitter.com/travisbrown") :=
  (wayback_url_schemes
    ⟨"https://twitter.com/travisbrown", "20201103091610",
      "ZHYT52YPEOCHJD5FZINSDYXGQZI22WJ4", "text/html", 10, none⟩ true (by decide)).1

/-- C9: the resume key is extracted exactly when the row list has at least two
rows and the second-to-last row is empty, by removing the last two rows and
taking element 0 of the removed final row; the extraction is total only when
that final row is non-empty, and a response whose last two rows are both
empty panics (modelled as none). -/
theorem search_with_resume_key_extraction :
    (∀ rows : List (List String),
      (¬ (2 ≤ rows.length ∧ (rows.getD (rows.length - 2) []).isEmpty = true) →
        extract_resume_key rows = some (rows, none))
      ∧ (∀ k tail, 2 ≤ rows.length →
          (rows.getD (rows.length - 2) []).isEmpty = true →
          rows.getD (rows.length - 1) [] = k :: tail →
          extract_resume_key rows = some (rows.take (rows.length - 2), some k))
      ∧ (2 ≤ rows.length →
          (rows.getD (rows.length - 2) []).isEmpty = true →
          rows.getD (rows.length - 1) [] = [] →
          extract_resume_key rows = none))
    ∧ extract_resume_key [[], []] = none := by
  constructor
  · intro rows
    refine ⟨?_, ?_, ?_⟩
    · intro hcond
      simp only [extract_resume_key]
      rw [if_neg hcond]
    · intro k tail h1 h2 h3
      simp only [extract_resume_key]
      rw [if_pos ⟨h1, h2⟩, h3]
      rfl
    · intro h1 h2 h3
      simp only [extract_resume_key]
      rw [if_pos ⟨h1, h2⟩, h3]
      rfl
  · decide

/-- Witness for C9: a three-row response with an empty second-to-last row and
a singleton final row yields the resume key and drops the last two rows. -/
theorem search_with_resume_key_extraction_witness :
    extract_resume_key [["a"], [], ["KEY"]] = some ([["a"]], some "KEY") := by
  have h := (search_with_resume_key_extraction.1 [["a"], [], ["KEY"]]).2.1
    "KEY" [] (by decide) (by decide) (by decide)
  simpa using h

theorem retry_run_attempts_le {ε α : Type} (policy : ε → Option RetryPolicy)
    (attempt : Nat → Except ε α) (idx : Nat) (b : ErrorBackoff) (fuel : Nat) :
    (retry_run policy attempt idx b fuel).2.1 ≤ idx + 1 + fuel := by
  induction fuel generalizing idx b with
  | zero =>
    unfold retry_run
    cases attempt idx <;> simp
  | succ fuel ih =>
    unfold retry_run
    cases attempt idx with
    | ok v => simp
    | error e =>
      dsimp only
      rcases herr : error_backoff_delay policy b e with ⟨p, b2⟩
      cases p with
      | brk =>
        dsimp only
        omega
      | delay d =>
        dsimp only
        have h := ih (idx + 1) b2
        omega

theorem retry_cdx_delays (attempt : Nat → Except CdxError α) (idx : Nat)
    (b : ErrorBackoff) (fuel : Nat) :
    ∀ d ∈ (retry_run cdx_custom_retry_policy attempt idx b fuel).2.2, d = 30000 := by
  induction fuel generalizing idx b with
  | zero =>
    unfold retry_run
    cases attempt idx <;> simp
  | succ fuel ih =>
    unfold retry_run
    cases attempt idx with
    | ok v => simp
    | error e =>
      cases e <;>
        simp [error_backoff_delay, cdx_custom_retry_policy] <;>
        exact ih (idx + 1) b

/-- C5 (amended): transport and JSON-decode CDX errors retry after the fixed
30-second delay, item-parse errors and BlockedQuery break immediately
(a first attempt failing with one of them ends the run after 1 attempt), and
a failing CDX operation is retried at most 7 times, i.e. attempted at most 8
times in total. -/
theorem cdx_retry_policy_spec :
    (∀ (α : Type) (attempt : Nat → Except CdxError α),
        (retry_cdx attempt).2.1 ≤ 8
      ∧ (∀ d ∈ (retry_cdx attempt).2.2, d = 30000)
      ∧ (attempt 0 = Except.error CdxError.item_parsing → (retry_cdx attempt).2.1 = 1)
      ∧ (∀ q, attempt 0 = Except.error (CdxError.blocked_query q) →
          (retry_cdx attempt).2.1 = 1))
    ∧ cdx_custom_retry_policy CdxError.http_client = some (RetryPolicy.delay 30000)
    ∧ cdx_custom_retry_policy CdxError.json_decode = some (RetryPolicy.delay 30000)
    ∧ cdx_custom_retry_policy CdxError.item_parsing = some RetryPolicy.brk
    ∧ (∀ q, cdx_custom_retry_policy (CdxError.blocked_query q) = some RetryPolicy.brk) := by
  refine ⟨?_, rfl, rfl, rfl, fun q => rfl⟩
  intro α attempt
  refine ⟨?_, ?_, ?_, ?_⟩
  · have h := retry_run_attempts_le cdx_custom_retry_policy attempt 0
      ⟨cdx_default_initial_delay_ms⟩ cdx_max_retries
    simpa [retry_cdx, cdx_max_retries] using h
  · exact retry_cdx_delays attempt 0 _ _
  · intro h
    simp [retry_cdx, cdx_max_retries, retry_run, h, error_backoff_delay,
      cdx_custom_retry_policy]
  · intro q h
    simp [retry_cdx, cdx_max_retries, retry_run, h, error_backoff_delay,
      cdx_custom_retry_policy]

/-- Counterexample for C5 as frozen: an operation that fails with a transport
error on every attempt is attempted 8 times in total (1 initial attempt plus
the 7 configured retries), not at most 7. -/
theorem cdx_retry_eight_attempts :
    (retry_cdx (α := Unit) (fun _ => Except.error CdxError.http_client)).2.1 = 8 := by
  decide

/-- Witness for C5 (amended): a first attempt failing with an item-parse
error is not retried. -/
theorem cdx_retry_policy_spec_witness :
    (retry_cdx (α := Unit) (fun _ => Except.error CdxError.item_parsing)).2.1 = 1 := by
  have h := cdx_retry_policy_spec.1 Unit (fun _ => Except.error CdxError.item_parsing)
  exact h.2.2.1 rfl

/-- C4: when the initial HEAD returns 302 with a parsable archive-URL
Location and the digest of the canonical redirect template rendered for the
Location's captured URL equals expected_digest, no GET is issued, the
template bytes are returned as content with valid_initial_content = true and
valid_digest = true, and exactly one further HEAD to the next capture derives
the terminal (url, timestamp) from its Location. -/
theorem resolve_redirect_guess_success
    (head_oracle : String → HeadResp) (get_oracle : String → GetResp)
    (digestFn : String → String) (url timestamp expected_digest loc loc2 : String)
    (info actual : UrlInfo)
    (h1 : head_oracle (downloader_wayback_url url timestamp true) = ⟨302, some loc⟩)
    (h2 : parse_url_info loc = some info)
    (h3 : digestFn (guess_redirect_content info.url) = expected_digest)
    (h4 : head_oracle (downloader_wayback_url info.url info.timestamp true)
        = ⟨302, some loc2⟩)
    (h5 : parse_url_info loc2 = some actual) :
    resolve_redirect head_oracle get_oracle digestFn url timestamp expected_digest
      = (Except.ok ⟨actual.url, actual.timestamp,
           guess_redirect_content info.url, true, true⟩,
         [Req.head_req (downloader_wayback_url url timestamp true),
          Req.head_req (downloader_wayback_url info.url info.timestamp true)]) := by
  simp [resolve_redirect, direct_resolve_redirect, h1, h2, h3, h4, h5]

/-- Witness for C4: concrete oracles realizing the guess-succeeds protocol
run (one HEAD to the initial capture, one HEAD to the next capture, no GET). -/
theorem resolve_redirect_guess_success_witness :
    resolve_redirect
      (fun u =>
        if u = downloader_wayback_url "https://x.example/a" "20200101000000" true
        then ⟨302,
          some "https://web.archive.org/web/20201103091610id_/https://example.com/target"⟩
        else if u = downloader_wayback_url "https://example.com/target" "20201103091610" true
        then ⟨302,
          some "http://web.archive.org/web/20201103091611id_/https://example.com/final"⟩
        else ⟨404, none⟩)
      (fun _ => ⟨500, ""⟩)
      (fun s =>
        if s = guess_redirect_content "https://example.com/target"
        then "GUESSDIGEST" else "other")
      "https://x.example/a" "20200101000000" "GUESSDIGEST"
      = (Except.ok ⟨"https://example.com/final", "20201103091611",
           guess_redirect_content "https://example.com/target", true, true⟩,
         [Req.head_req (downloader_wayback_url "https://x.example/a" "20200101000000" true),
          Req.head_req
            (downloader_wayback_url "https://example.com/target" "20201103091610" true)]) :=
  resolve_redirect_guess_success
    (fun u =>
      if u = downloader_wayback_url "https://x.example/a" "20200101000000" true
      then ⟨302,
        some "https://web.archive.org/web/20201103091610id_/https://example.com/target"⟩
      else if u = downloader_wayback_url "https://example.com/target" "20201103091610" true
      then ⟨302,
        some "http://web.archive.org/web/20201103091611id_/https://example.com/final"⟩
      else ⟨404, none⟩)
    (fun _ => ⟨500, ""⟩)
    (fun s =>
      if s = guess_redirect_content "https://example.com/target"
      then "GUESSDIGEST" else "other")
    "https://x.example/a" "20200101000000" "GUESSDIGEST"
    "https://web.archive.org/web/20201103091610id_/https://example.com/target"
    "http://web.archive.org/web/20201103091611id_/https://example.com/final"
    ⟨"https://example.com/target", "20201103091610"⟩
    ⟨"https://example.com/final", "20201103091611"⟩
    (by decide) (by decide) (by decide) (by decide) (by decide)

/-- C2 (amended): for every redirect item processed by resolve_redirects, the
index query for the terminal (url, timestamp) is performed first, and only
when it returns an item is the content written into data/<item.digest>.gz
(gzip inner filename make_filename(item)) and the terminal item appended to
extras.csv; any failure (client error, invalid digest, index-query failure,
or missing actual item) instead appends the original item's record to
errors/redirects.csv and writes nothing to data/ for that item. -/
theorem resolve_redirects_behavior
    (resolver : Item → Option RedirectResolution)
    (searcher : String → String → Option (List Item))
    (redirects_csv : List Item) (known_lines : List String) :
    ∀ it ∈ eligible_items redirects_csv known_lines,
      (resolver it = none →
        resolve_step resolver searcher it = (Except.error it, [])
        ∧ it ∈ (resolve_redirects resolver searcher redirects_csv
            known_lines).redirect_errors_csv)
      ∧ (∀ res, resolver it = some res → res.valid_digest = false →
        resolve_step resolver searcher it = (Except.error it, [])
        ∧ it ∈ (resolve_redirects resolver searcher redirects_csv
            known_lines).redirect_errors_csv)
      ∧ (∀ res, resolver it = some res → res.valid_digest = true →
          searcher res.url res.timestamp = none →
        resolve_step resolver searcher it
            = (Except.error it, [REvent.search_ev res.url res.timestamp])
        ∧ it ∈ (resolve_redirects resolver searcher redirects_csv
            known_lines).redirect_errors_csv)
      ∧ (∀ res found, resolver it = some res → res.valid_digest = true →
          searcher res.url res.timestamp = some found → found.getLast? = none →
        resolve_step resolver searcher it
            = (Except.error it, [REvent.search_ev res.url res.timestamp])
        ∧ it ∈ (resolve_redirects resolver searcher redirects_csv
            known_lines).redirect_errors_csv)
      ∧ (∀ res found actual, resolver it = some res → res.valid_digest = true →
          searcher res.url res.timestamp = some found →
          found.getLast? = some actual →
        resolve_step resolver searcher it
            = (Except.ok actual,
               [REvent.search_ev res.url res.timestamp,
                REvent.write_data_ev
                  ⟨it.digest ++ ".gz", make_filename it, res.content⟩])
        ∧ actual ∈ (resolve_redirects resolver searcher redirects_csv
            known_lines).extras_csv
        ∧ (⟨it.digest ++ ".gz", make_filename it, res.content⟩ : GzFile)
            ∈ (resolve_redirects resolver searcher redirects_csv
                known_lines).data_files) := by
  intro it hit
  have herr : ∀ evs, resolve_step resolver searcher it = (Except.error it, evs) →
      it ∈ (resolve_redirects resolver searcher redirects_csv
        known_lines).redirect_errors_csv := by
    intro evs hstep
    simp only [resolve_redirects]
    apply List.mem_filterMap.mpr
    exact ⟨(Except.error it, evs), List.mem_map.mpr ⟨it, hit, hstep⟩, rfl⟩
  have hok : ∀ (actual : Item) evs,
      resolve_step resolver searcher it = (Except.ok actual, evs) →
      actual ∈ (resolve_redirects resolver searcher redirects_csv
        known_lines).extras_csv := by
    intro actual evs hstep
    simp only [resolve_redirects]
    apply List.mem_filterMap.mpr
    exact ⟨(Except.ok actual, evs), List.mem_map.mpr ⟨it, hit, hstep⟩, rfl⟩
  have hwrite : ∀ (x : Except Item Item) evs (f : GzFile),
      resolve_step resolver searcher it = (x, evs) →
      REvent.write_data_ev f ∈ evs →
      f ∈ (resolve_redirects resolver searcher redirects_csv
        known_lines).data_files := by
    intro x evs f hstep hev
    simp only [resolve_redirects]
    apply List.mem_filterMap.mpr
    refine ⟨REvent.write_data_ev f, ?_, rfl⟩
    apply List.mem_flatten.mpr
    refine ⟨evs, ?_, hev⟩
    apply List.mem_map.mpr
    exact ⟨(x, evs), List.mem_map.mpr ⟨it, hit, hstep⟩, rfl⟩
  refine ⟨?_, ?_, ?_, ?_, ?_⟩
  · intro hres
    have hstep : resolve_step resolver searcher it = (Except.error it, []) := by
      simp [resolve_step, hres]
    exact ⟨hstep, herr _ hstep⟩
  · intro res hres hvd
    have hstep : resolve_step resolver searcher it = (Except.error it, []) := by
      simp [resolve_step, hres, hvd]
    exact ⟨hstep, herr _ hstep⟩
  · intro res hres hvd hsearch
    have hstep : resolve_step resolver searcher it
        = (Except.error it, [REvent.search_ev res.url res.timestamp]) := by
      simp [resolve_step, hres, hvd, hsearch]
    exact ⟨hstep, herr _ hstep⟩
  · intro res found hres hvd hsearch hlast
    have hstep : resolve_step resolver searcher it
        = (Except.error it, [REvent.search_ev res.url res.timestamp]) := by
      simp [resolve_step, hres, hvd, hsearch, hlast]
    exact ⟨hstep, herr _ hstep⟩
  · intro res found actual hres hvd hsearch hlast
    have hstep : resolve_step resolver searcher it
        = (Except.ok actual,
           [REvent.search_ev res.url res.timestamp,
            REvent.write_data_ev
              ⟨it.digest ++ ".gz", make_filename it, res.content⟩]) := by
      simp [resolve_step, hres, hvd, hsearch, hlast]
    exact ⟨hstep, hok actual _ hstep, hwrite _ _ _ hstep (by simp)⟩

/-- Counterexample for C2 as frozen: a redirect item whose resolution reports
valid_digest = true but whose follow-up index query returns no items produces
no write into data/<item.digest>.gz at all — the code performs the index
query before the write and routes the item to errors/redirects.csv — whereas
the claim asserts that every valid_digest = true resolution has its content
written to data/<item.digest>.gz (and only then performs the query). -/
theorem resolve_redirects_write_claim_counterexample :
    ((⟨"https://t.example/y", "20200102000000", "cbytes", true, true⟩ :
        RedirectResolution).valid_digest = true)
    ∧ (resolve_redirects
        (fun _ => some ⟨"https://t.example/y", "20200102000000", "cbytes", true, true⟩)
        (fun _ _ => some [])
        [⟨"https://a.example/x", "20200101000000", "DIGR", "text/html", 5, some 302⟩]
        []).data_files = []
    ∧ (resolve_redirects
        (fun _ => some ⟨"https://t.example/y", "20200102000000", "cbytes", true, true⟩)
        (fun _ _ => some [])
        [⟨"https://a.example/x", "20200101000000", "DIGR", "text/html", 5, some 302⟩]
        []).redirect_errors_csv
      = [⟨"https://a.example/x", "20200101000000", "DIGR", "text/html", 5, some 302⟩]
    ∧ (resolve_redirects
        (fun _ => some ⟨"https://t.example/y", "20200102000000", "cbytes", true, true⟩)
        (fun _ _ => some [])
        [⟨"https://a.example/x", "20200101000000", "DIGR", "text/html", 5, some 302⟩]
        []).extras_csv = [] := by
  refine ⟨rfl, ?_, ?_, ?_⟩ <;> decide

/-- Witness for C2 (amended): a successful resolution whose index query
returns a terminal item appends that item to extras.csv and writes the
content into data/<digest>.gz. -/
theorem resolve_redirects_behavior_witness :
    (⟨"https://t.example/final", "20200103000000", "FINALDIG", "text/html", 7, none⟩ :
        Item)
      ∈ (resolve_redirects
          (fun _ => some ⟨"https://t.example/y", "20200102000000", "cbytes", true, true⟩)
          (fun _ _ => some
            [⟨"https://t.example/final", "20200103000000", "FINALDIG", "text/html", 7,
              none⟩])
          [⟨"https://a.example/x", "20200101000000", "DIGR", "text/html", 5, some 302⟩]
          []).extras_csv
    ∧ (⟨"DIGR.gz", "DIGR.html", "cbytes"⟩ : GzFile)
      ∈ (resolve_redirects
          (fun _ => some ⟨"https://t.example/y", "20200102000000", "cbytes", true, true⟩)
          (fun _ _ => some
            [⟨"https://t.example/final", "20200103000000", "FINALDIG", "text/html", 7,
              none⟩])
          [⟨"https://a.example/x", "20200101000000", "DIGR", "text/html", 5, some 302⟩]
          []).data_files := by
  have h := resolve_redirects_behavior
    (fun _ => some ⟨"https://t.example/y", "20200102000000", "cbytes", true, true⟩)
    (fun _ _ => some
      [⟨"https://t.example/final", "20200103000000", "FINALDIG", "text/html", 7, none⟩])
    [⟨"https://a.example/x", "20200101000000", "DIGR", "text/html", 5, some 302⟩]
    []
    ⟨"https://a.example/x", "20200101000000", "DIGR", "text/html", 5, some 302⟩
    (by decide)
  have h5 := h.2.2.2.2
    ⟨"https://t.example/y", "20200102000000", "cbytes", true, true⟩
    [⟨"https://t.example/final", "20200103000000", "FINALDIG", "text/html", 7, none⟩]
    ⟨"https://t.example/final", "20200103000000", "FINALDIG", "text/html", 7, none⟩
    rfl rfl rfl (by decide)
  exact ⟨h5.2.1, h5.2.2⟩

end WaybackRs
